import Mathlib

/-!
Verification of the episode-resolution-and-cache engine and the
DOM-annotation watcher of the digg-daily-rss Chrome extension
(src/chrome-extension/popup.js and src/chrome-extension/content.js),
as a shallow embedding: stateful and effectful JavaScript is modelled by
explicit state passing, clock readings (`Date.now()`) become explicit
`Nat` parameters, the network and the `chrome.storage.local` layer become
explicit outcome parameters, and fallible code returns `Except`.
-/

namespace DiggDaily

/-- The CDN base URL constant `CDN_BASE` of popup.js. -/
def CDN_BASE : String := "https://d3tha58ojcqcpf.cloudfront.net/prod/episodes"

/-- The `DIGGDAILY_URL` constant of popup.js. -/
def DIGGDAILY_URL : String := "https://digg.com/diggdaily"

/-- The `CACHE_DURATION_MS` constant of popup.js: 30 minutes in milliseconds. -/
def CACHE_DURATION_MS : Nat := 30 * 60 * 1000

/-- Milliseconds per calendar day, used to model taking the calendar-date
component of a timestamp (`published_date.split('T')[0]` in popup.js). -/
def msPerDay : Nat := 24 * 60 * 60 * 1000

/-- A raw episode object as returned by the remote API (`data.episodes[i]`).
Timestamps (`published_date`) are modelled as `Nat` epoch milliseconds; the
JavaScript code parses the ISO string with `new Date(...)` and compares the
resulting numeric values, which this ordering models. -/
structure RawEpisode where
  episode_id : String
  file_name : String
  published_date : Nat
  published_state : String
  episode_number : Nat
deriving DecidableEq, Repr

/-- The episode record constructed by `fetchLatestEpisode` in popup.js. -/
structure Episode where
  title : String
  date : Nat
  episodeNumber : Nat
  diggUrl : String
  audioUrl : String
  fetchedAt : Nat
deriving DecidableEq, Repr

/-- Model of `createTitle(publishedDate, episodeNumber)` of popup.js: a string
built deterministically from the published date and the episode number.  The
locale rendering of the date (`toLocaleDateString('en-US', ...)`) is abstracted
as the decimal rendering of the timestamp; like the source it is a pure
function of exactly these two inputs. -/
def createTitle (publishedDate : Nat) (episodeNumber : Nat) : String :=
  "Digg Daily #" ++ toString episodeNumber ++ " - " ++ toString publishedDate

/-- The episode object literal of popup.js lines 76-83: title, calendar date of
publication, episode number, fixed digg URL, CDN audio URL, and the clock
reading `Date.now()` stamped as `fetchedAt`. -/
def mkEpisode (latest : RawEpisode) (now : Nat) : Episode :=
  { title := createTitle latest.published_date latest.episode_number
  , date := latest.published_date / msPerDay
  , episodeNumber := latest.episode_number
  , diggUrl := DIGGDAILY_URL
  , audioUrl := CDN_BASE ++ "/" ++ latest.episode_id ++ "/" ++ latest.file_name
  , fetchedAt := now }

/-- The sort relation of popup.js line 70: `publishedEpisodes.sort((a, b) =>
new Date(b.published_date) - new Date(a.published_date))`, i.e. descending by
publication timestamp. -/
def byDateDesc (a b : RawEpisode) : Prop :=
  b.published_date ≤ a.published_date

instance : DecidableRel byDateDesc := fun a b =>
  inferInstanceAs (Decidable (b.published_date ≤ a.published_date))

instance : IsTotal RawEpisode byDateDesc :=
  ⟨fun a b => (Nat.le_total b.published_date a.published_date).imp id id⟩

instance : IsTrans RawEpisode byDateDesc :=
  ⟨fun _ _ _ hab hbc => Nat.le_trans hbc hab⟩

/-- The errors thrown on the fetch path of popup.js: `API request failed:
${status}` (line 53), `No episodes available` (line 59), and `No published
episodes found` (line 66). -/
inductive EpisodeError where
  | apiRequestFailed (status : Nat)
  | noEpisodesAvailable
  | noPublishedEpisodes
deriving DecidableEq, Repr

/-- The selection step of popup.js lines 63-83: filter the raw collection to
episodes whose `published_state` is exactly `"PUBLISHED"`, fail with the
`No published episodes found` error when that set is empty, otherwise sort
descending by `published_date`, take the first, and build the episode record
from it (stamping `fetchedAt` with the clock reading `now`). -/
def selectEpisode (raws : List RawEpisode) (now : Nat) : Except EpisodeError Episode :=
  let publishedEpisodes := raws.filter (fun ep => ep.published_state == "PUBLISHED")
  if publishedEpisodes.isEmpty then
    .error .noPublishedEpisodes
  else
    match List.insertionSort byDateDesc publishedEpisodes with
    | [] => .error .noPublishedEpisodes
    | latest :: _ => .ok (mkEpisode latest now)

/-- The possible responses to the single `fetch(API_URL)` network call of
popup.js: an HTTP failure (`!response.ok`, carrying the status), or a parsed
JSON payload whose `episodes` field is either missing (`none`) or a list of
raw episodes. -/
inductive FetchResult where
  | httpError (status : Nat)
  | payload (episodes : Option (List RawEpisode))
deriving DecidableEq, Repr

/-- The error value raised by a failing `chrome.storage.local` operation;
popup.js catches it at every use site. -/
inductive StorageError where
  | storageFailure
deriving DecidableEq, Repr

/-- The environment of one resolution: whether each `chrome.storage.local`
operation (`get`, `set`, `remove`) succeeds, the clock reading `Date.now()`,
and the response the network would return. -/
structure Env where
  getOk : Bool
  setOk : Bool
  removeOk : Bool
  now : Nat
  fetch : FetchResult
deriving DecidableEq, Repr

/-- The cache state: the single-slot `chrome.storage.local` entry stored under
the fixed key `CACHE_KEY` (`diggDailyCache`), or `none` when absent. -/
abbrev CacheState : Type := Option Episode

/-- Model of `chrome.storage.local.get(CACHE_KEY)`: returns the stored entry,
or fails with a storage error. -/
def storageGet (env : Env) (st : CacheState) : Except StorageError (Option Episode) :=
  if env.getOk then .ok st else .error .storageFailure

/-- Model of `chrome.storage.local.set({ [CACHE_KEY]: episode })`: replaces the
entry, or fails with a storage error. -/
def storageSet (env : Env) (episode : Episode) : Except StorageError CacheState :=
  if env.setOk then .ok (some episode) else .error .storageFailure

/-- Model of `chrome.storage.local.remove(CACHE_KEY)`: clears the entry, or
fails with a storage error. -/
def storageRemove (env : Env) : Except StorageError CacheState :=
  if env.removeOk then .ok none else .error .storageFailure

/-- Model of `getCachedEpisode` (popup.js lines 94-106): read the stored entry
inside a try/catch; return it when it exists and `Date.now() - fetchedAt <
CACHE_DURATION_MS`, and return `null` (`none`) otherwise, in particular on a
storage read error.  Natural-number truncated subtraction agrees with the
JavaScript signed subtraction here: a `fetchedAt` in the future gives a
negative difference in JavaScript and `0` here, below the window either way. -/
def getCachedEpisode (env : Env) (st : CacheState) : Option Episode :=
  match storageGet env st with
  | .ok (some cached) =>
      if env.now - cached.fetchedAt < CACHE_DURATION_MS then some cached else none
  | .ok none => none
  | .error _ => none

/-- Model of `cacheEpisode` (popup.js lines 111-117): write the entry inside a
try/catch; on a storage error the write silently fails and the state is left
unchanged. -/
def cacheEpisode (env : Env) (st : CacheState) (episode : Episode) : CacheState :=
  match storageSet env episode with
  | .ok st2 => st2
  | .error _ => st

/-- Model of `clearCache` (popup.js lines 122-128): remove the entry inside a
try/catch; on a storage error the removal silently fails and the state is left
unchanged. -/
def clearCache (env : Env) (st : CacheState) : CacheState :=
  match storageRemove env with
  | .ok st2 => st2
  | .error _ => st

deriving instance DecidableEq for Except

/-- The outcome of one call to `fetchLatestEpisode`: the returned episode or
thrown error, the cache state afterwards, and how many network calls were
issued. -/
structure FetchOut where
  result : Except EpisodeError Episode
  state : CacheState
  netCalls : Nat
deriving DecidableEq, Repr

/-- Model of `fetchLatestEpisode` (popup.js lines 41-89): return the cached
episode when `getCachedEpisode` yields one (zero network calls); otherwise
issue the single `fetch(API_URL)` call, fail on HTTP error, on a missing or
empty `episodes` field, run the selection step, cache a successful result and
return it. -/
def fetchLatestEpisode (env : Env) (st : CacheState) : FetchOut :=
  match getCachedEpisode env st with
  | some cached => ⟨.ok cached, st, 0⟩
  | none =>
    match env.fetch with
    | .httpError status => ⟨.error (.apiRequestFailed status), st, 1⟩
    | .payload none => ⟨.error .noEpisodesAvailable, st, 1⟩
    | .payload (some eps) =>
      if eps.isEmpty then ⟨.error .noEpisodesAvailable, st, 1⟩
      else
        match selectEpisode eps env.now with
        | .error e => ⟨.error e, st, 1⟩
        | .ok episode => ⟨.ok episode, cacheEpisode env st episode, 1⟩

/-- Model of the refresh-button path of popup.js `init` (lines 183-191): the
handler awaits `clearCache()` and then `loadEpisode()`, which calls
`fetchLatestEpisode` — the forced-refresh resolution `resolve(true)`. -/
def resolveRefresh (env : Env) (st : CacheState) : FetchOut :=
  fetchLatestEpisode env (clearCache env st)

/-- Executable substring containment on character lists, modelling JavaScript
`String.prototype.includes`: the pattern is a prefix of the list or contained
in its tail. -/
def containsSub (pat : List Char) : List Char → Bool
  | [] => pat.isEmpty
  | c :: rest => pat.isPrefixOf (c :: rest) || containsSub pat rest

/-- Model of `s.includes(pat)` on JavaScript strings. -/
def strContains (s pat : String) : Bool :=
  containsSub pat.toList s.toList

/-- A DOM element as the marking pass of content.js sees it: its tag name, its
`id` attribute, its `href` attribute, its class list, and its parent node.
A document is a `List Elem`; an element's identity is its index in the list
and `parent` is the index of its parent element, if any. -/
structure Elem where
  tag : String
  idAttr : Option String
  href : Option String
  classes : List String
  parent : Option Nat
deriving DecidableEq, Repr

/-- The class added by the marking pass of content.js: `digg-daily-official`. -/
def officialClass : String := "digg-daily-official"

/-- Model of the official-post test of content.js lines 43-45: the href
contains `/digg-daily-` and contains neither `homemade` nor `recap`. -/
def isOfficialHref (href : String) : Bool :=
  strContains href "/digg-daily-" &&
  !strContains href "homemade" &&
  !strContains href "recap"

/-- Model of `Element.closest(sel)` starting from element `i`: check the
element itself, then walk the parent chain; `fuel` bounds the walk (a real DOM
tree is acyclic, and every caller passes fuel larger than the document size). -/
def closest (doc : List Elem) (sel : String) : Nat → Nat → Option Nat
  | 0, _ => none
  | fuel + 1, i =>
    match doc[i]? with
    | none => none
    | some e =>
      if e.tag == sel then some i
      else
        match e.parent with
        | none => none
        | some p => closest doc sel fuel p

/-- Model of `link.closest('article') || link.closest('div')` (content.js line
48): the nearest `article` ancestor-or-self, and otherwise the nearest `div`
ancestor-or-self. -/
def containerOf (doc : List Elem) (i : Nat) : Option Nat :=
  match closest doc "article" (doc.length + 1) i with
  | some c => some c
  | none => closest doc "div" (doc.length + 1) i

/-- The body of the `links.forEach` callback of content.js lines 39-53 for the
anchor at index `i`: read its href (`getAttribute('href') || ''`), and when it
passes the official-post test, look up its container and add `officialClass`
to the container's class list unless it is already present. -/
def markStep (doc : List Elem) (i : Nat) : List Elem :=
  match doc[i]? with
  | none => doc
  | some link =>
    if isOfficialHref (link.href.getD "") then
      match containerOf doc i with
      | none => doc
      | some c =>
        match doc[c]? with
        | none => doc
        | some cont =>
          if cont.classes.contains officialClass then doc
          else doc.set c { cont with classes := cont.classes ++ [officialClass] }
    else doc

/-- Model of `document.querySelectorAll('a[href*="/diggdaily/"]')` (content.js
line 37): the indices of the anchor elements whose href attribute contains
`/diggdaily/`, in document order.  `querySelectorAll` returns a static list,
so it is computed once from the document the pass starts from. -/
def diggLinks (doc : List Elem) : List Nat :=
  (List.range doc.length).filter fun i =>
    match doc[i]? with
    | some e => e.tag == "a" && strContains (e.href.getD "") "/diggdaily/"
    | none => false

/-- The `forEach` loop over the selected anchors, processing them in order. -/
def highlightAux (doc : List Elem) : List Nat → List Elem
  | [] => doc
  | i :: rest => highlightAux (markStep doc i) rest

/-- Model of `highlightOfficialPosts` (content.js lines 36-54): select all
community anchors and run the marking step on each. -/
def highlightOfficialPosts (doc : List Elem) : List Elem :=
  highlightAux doc (diggLinks doc)

/-- The floating quick-play button injected by `addQuickPlayButton`
(content.js lines 13-33). -/
def quickPlayButton : Elem :=
  { tag := "button"
  , idAttr := some "digg-daily-quick-play"
  , href := none
  , classes := []
  , parent := none }

/-- Model of `addQuickPlayButton` (content.js lines 13-33): do nothing when an
element with id `digg-daily-quick-play` already exists, otherwise append the
button to the document body. -/
def addQuickPlayButton (doc : List Elem) : List Elem :=
  if doc.any (fun e => e.idAttr == some "digg-daily-quick-play") then doc
  else doc ++ [quickPlayButton]

/-- Model of the content.js top level (lines 8-76): when
`window.location.hostname.includes('digg.com')` holds, inject the quick-play
button, run the marking pass, and install the MutationObserver; otherwise do
nothing at all.  The result is the pair of whether the observer was installed
and the document afterwards. -/
def runContentScript (hostname : String) (doc : List Elem) : Bool × List Elem :=
  if strContains hostname "digg.com" then
    (true, highlightOfficialPosts (addQuickPlayButton doc))
  else
    (false, doc)

/-- Modelled from the spec (section 4.6 scope guard): a page host "matches the
target site's domain" when it equals the domain or is a subdomain of it.  This
is the spec-side definition, to be compared with the source's substring
check. -/
def specHostMatches (host domain : String) : Bool :=
  host == domain || ("." ++ domain).toList.isSuffixOf host.toList

/-- The skeleton of an element: the fields the marking pass reads but never
writes (tag, href attribute, parent).  The pass only ever changes class
lists. -/
def skel (e : Elem) : String × Option String × Option Nat :=
  (e.tag, e.href, e.parent)

/-- The element at index `j` of `doc` carries class `c`. -/
def hasClass (doc : List Elem) (j : Nat) (c : String) : Prop :=
  ∃ e, doc[j]? = some e ∧ c ∈ e.classes

/-- There is an official community anchor at index `i` of `doc`. -/
def linkOfficialAt (doc : List Elem) (i : Nat) : Prop :=
  ∃ e, doc[i]? = some e ∧ isOfficialHref (e.href.getD "") = true

/-- A successful selection with its `fetchedAt` clock stamp erased, for
comparing two selections made at different instants. -/
def stripClock : Except EpisodeError Episode → Except EpisodeError Episode
  | .ok ep => .ok { ep with fetchedAt := 0 }
  | .error e => .error e

/-- A four-element demonstration document: a `div` containing an anchor to
`/diggdaily/digg-daily-123`, and a second `div` containing an anchor to
`/diggdaily/digg-daily-homemade-5`. -/
def demoDoc : List Elem :=
  [ { tag := "div", idAttr := none, href := none, classes := [], parent := none }
  , { tag := "a", idAttr := none, href := some "/diggdaily/digg-daily-123",
      classes := [], parent := some 0 }
  , { tag := "div", idAttr := none, href := none, classes := [], parent := none }
  , { tag := "a", idAttr := none, href := some "/diggdaily/digg-daily-homemade-5",
      classes := [], parent := some 2 } ]

section SelectionLemmas

/-- A raw episode is in the filtered published list iff it is in the input and
its state is exactly `"PUBLISHED"`. -/
theorem mem_published_filter (raws : List RawEpisode) (r : RawEpisode) :
    r ∈ raws.filter (fun ep => ep.published_state == "PUBLISHED") ↔
      r ∈ raws ∧ r.published_state = "PUBLISHED" := by
  simp [List.mem_filter]

end SelectionLemmas

/-- C2: for every raw collection containing at least one record whose
publication state is exactly `"PUBLISHED"`, the selection step returns the
record built from a published element of the collection whose publication
timestamp is maximal among the published records only. -/
theorem selectEpisode_max_published (raws : List RawEpisode) (now : Nat)
    (h : ∃ r ∈ raws, r.published_state = "PUBLISHED") :
    ∃ latest, latest ∈ raws ∧ latest.published_state = "PUBLISHED" ∧
      selectEpisode raws now = .ok (mkEpisode latest now) ∧
      ∀ r ∈ raws, r.published_state = "PUBLISHED" →
        r.published_date ≤ latest.published_date := by
  obtain ⟨r0, hr0_mem, hr0_pub⟩ := h
  have hr0_fil : r0 ∈ raws.filter (fun ep => ep.published_state == "PUBLISHED") :=
    (mem_published_filter raws r0).mpr ⟨hr0_mem, hr0_pub⟩
  have hperm := List.perm_insertionSort byDateDesc
    (raws.filter (fun ep => ep.published_state == "PUBLISHED"))
  have hsorted := List.sorted_insertionSort byDateDesc
    (raws.filter (fun ep => ep.published_state == "PUBLISHED"))
  cases hsort : List.insertionSort byDateDesc
      (raws.filter (fun ep => ep.published_state == "PUBLISHED")) with
  | nil =>
    rw [hsort] at hperm
    rw [← hperm.mem_iff] at hr0_fil
    cases hr0_fil
  | cons latest t =>
    rw [hsort] at hperm hsorted
    have hlat_fil : latest ∈ raws.filter (fun ep => ep.published_state == "PUBLISHED") :=
      hperm.mem_iff.mp (List.mem_cons_self latest t)
    obtain ⟨hlat_mem, hlat_pub⟩ := (mem_published_filter raws latest).mp hlat_fil
    have hne : (raws.filter (fun ep => ep.published_state == "PUBLISHED")).isEmpty = false := by
      cases hfil : raws.filter (fun ep => ep.published_state == "PUBLISHED") with
      | nil => rw [hfil] at hr0_fil; cases hr0_fil
      | cons a l => rfl
    refine ⟨latest, hlat_mem, hlat_pub, ?_, ?_⟩
    · simp only [selectEpisode, hne, Bool.false_eq_true, if_false, hsort]
    · intro r hr_mem hr_pub
      have hr_fil : r ∈ raws.filter (fun ep => ep.published_state == "PUBLISHED") :=
        (mem_published_filter raws r).mpr ⟨hr_mem, hr_pub⟩
      have hr_sort : r ∈ latest :: t := hperm.mem_iff.mpr hr_fil
      rcases List.mem_cons.mp hr_sort with rfl | hr_t
      · exact Nat.le_refl _
      · exact List.rel_of_sorted_cons hsorted r hr_t

/-- C2 witness: on the one-element published collection the selected episode
is that record, trivially maximal. -/
theorem selectEpisode_max_published_witness :
    ∃ latest, latest ∈ [RawEpisode.mk "7" "ep.mp3" 100 "PUBLISHED" 40] ∧
      latest.published_state = "PUBLISHED" ∧
      selectEpisode [RawEpisode.mk "7" "ep.mp3" 100 "PUBLISHED" 40] 0 =
        .ok (mkEpisode latest 0) ∧
      ∀ r ∈ [RawEpisode.mk "7" "ep.mp3" 100 "PUBLISHED" 40],
        r.published_state = "PUBLISHED" → r.published_date ≤ latest.published_date :=
  selectEpisode_max_published [RawEpisode.mk "7" "ep.mp3" 100 "PUBLISHED" 40] 0
    ⟨RawEpisode.mk "7" "ep.mp3" 100 "PUBLISHED" 40, by decide, rfl⟩

/-- C3: for every raw collection with zero published records, including the
empty collection, the selection step fails with exactly the
`No published episodes found` error. -/
theorem selectEpisode_no_published (raws : List RawEpisode) (now : Nat)
    (h : ∀ r ∈ raws, r.published_state ≠ "PUBLISHED") :
    selectEpisode raws now = .error .noPublishedEpisodes := by
  have hfil : raws.filter (fun ep => ep.published_state == "PUBLISHED") = [] := by
    rw [List.filter_eq_nil_iff]
    intro r hr
    simpa using h r hr
  simp [selectEpisode, hfil]

/-- C3 witness: the empty collection fails with the
`No published episodes found` error. -/
theorem selectEpisode_no_published_witness :
    selectEpisode [] 0 = .error .noPublishedEpisodes :=
  selectEpisode_no_published [] 0 (by intro r hr; cases hr)

/-- C8 counterexample: two invocations of the selection step on the same raw
collection, at clock readings 0 and 1, return different records — they differ
in the `fetchedAt` field, which is stamped from `Date.now()`. -/
theorem selectEpisode_clock_counterexample :
    selectEpisode [RawEpisode.mk "7" "ep.mp3" 100 "PUBLISHED" 40] 0 ≠
      selectEpisode [RawEpisode.mk "7" "ep.mp3" 100 "PUBLISHED" 40] 1 := by
  decide

/-- C8 amended: the selection step is deterministic given its input and the
clock: every field of the result except the `fetchedAt` stamp depends only on
the raw collection, so two invocations on the same collection agree after
erasing the clock stamp. -/
theorem selectEpisode_deterministic_mod_clock (raws : List RawEpisode) (n₁ n₂ : Nat) :
    stripClock (selectEpisode raws n₁) = stripClock (selectEpisode raws n₂) := by
  cases hemp : (raws.filter (fun ep => ep.published_state == "PUBLISHED")).isEmpty with
  | true => simp [selectEpisode, hemp]
  | false =>
    cases hsort : List.insertionSort byDateDesc
        (raws.filter (fun ep => ep.published_state == "PUBLISHED")) with
    | nil => simp [selectEpisode, hemp, hsort]
    | cons latest t => simp [selectEpisode, hemp, hsort, stripClock, mkEpisode]

section ResolverLemmas

/-- Reading the cache when no entry is stored yields nothing, whether or not
the storage read succeeds. -/
theorem getCachedEpisode_none (env : Env) : getCachedEpisode env none = none := by
  unfold getCachedEpisode storageGet
  cases env.getOk <;> simp

/-- On a cache miss, `fetchLatestEpisode` issues exactly one network call. -/
theorem fetchLatestEpisode_netCalls_miss (env : Env) (st : CacheState)
    (h : getCachedEpisode env st = none) :
    (fetchLatestEpisode env st).netCalls = 1 := by
  unfold fetchLatestEpisode
  rw [h]
  cases env.fetch with
  | httpError status => rfl
  | payload eps? =>
    cases eps? with
    | none => rfl
    | some eps =>
      cases he : eps.isEmpty with
      | true => simp [he]
      | false =>
        cases hsel : selectEpisode eps env.now with
        | error e => simp [he, hsel]
        | ok episode => simp [he, hsel]

/-- On a cache miss with a functioning storage write, a successful fetch
result is stored in the cache. -/
theorem fetchLatestEpisode_stores_miss (env : Env) (st : CacheState)
    (h : getCachedEpisode env st = none) (hs : env.setOk = true) :
    ∀ ep, (fetchLatestEpisode env st).result = .ok ep →
      (fetchLatestEpisode env st).state = some ep := by
  unfold fetchLatestEpisode
  rw [h]
  cases env.fetch with
  | httpError status => intro ep hep; cases hep
  | payload eps? =>
    cases eps? with
    | none => intro ep hep; cases hep
    | some eps =>
      cases he : eps.isEmpty with
      | true => simp [he]
      | false =>
        cases hsel : selectEpisode eps env.now with
        | error e => simp [he, hsel]
        | ok episode =>
          simp only [he, Bool.false_eq_true, if_false, hsel]
          intro ep hep
          cases hep
          simp [cacheEpisode, storageSet, hs]

/-- On a cache miss, the returned result does not depend on the stored cache
state. -/
theorem fetchLatestEpisode_result_miss (env : Env) (st st' : CacheState)
    (h : getCachedEpisode env st = none) (h' : getCachedEpisode env st' = none) :
    (fetchLatestEpisode env st).result = (fetchLatestEpisode env st').result := by
  unfold fetchLatestEpisode
  rw [h, h']
  cases env.fetch with
  | httpError status => rfl
  | payload eps? =>
    cases eps? with
    | none => rfl
    | some eps =>
      cases he : eps.isEmpty with
      | true => simp [he]
      | false =>
        cases hsel : selectEpisode eps env.now with
        | error e => simp [he, hsel]
        | ok episode => simp [he, hsel]

end ResolverLemmas

/-- C1: with a functioning storage layer, `resolve(false)` (that is,
`fetchLatestEpisode`) issues a network call iff no valid cache entry exists:
when the stored entry is younger than the 30-minute window it is returned
unchanged with zero network calls and no state change, and when no entry is
stored or the entry's age reaches the window, exactly one network call is
issued and its successful result is stored in the cache and returned. -/
theorem fetchLatestEpisode_cache_contract (env : Env) (st : CacheState)
    (hg : env.getOk = true) (hs : env.setOk = true) :
    (∀ c, st = some c → env.now - c.fetchedAt < CACHE_DURATION_MS →
        fetchLatestEpisode env st = ⟨.ok c, st, 0⟩) ∧
    ((∀ c, st = some c → CACHE_DURATION_MS ≤ env.now - c.fetchedAt) →
        (fetchLatestEpisode env st).netCalls = 1 ∧
        ∀ ep, (fetchLatestEpisode env st).result = .ok ep →
          (fetchLatestEpisode env st).state = some ep) := by
  cases st with
  | none =>
    refine ⟨fun c hc => (nomatch hc), fun _ => ?_⟩
    have hmiss := getCachedEpisode_none env
    exact ⟨fetchLatestEpisode_netCalls_miss env none hmiss,
      fetchLatestEpisode_stores_miss env none hmiss hs⟩
  | some c =>
    have hget : getCachedEpisode env (some c) =
        if env.now - c.fetchedAt < CACHE_DURATION_MS then some c else none := by
      unfold getCachedEpisode storageGet
      simp [hg]
    by_cases hyoung : env.now - c.fetchedAt < CACHE_DURATION_MS
    · constructor
      · intro c' hc' _
        cases hc'
        unfold fetchLatestEpisode
        rw [hget, if_pos hyoung]
      · intro hstale
        exact absurd hyoung (Nat.not_lt.mpr (hstale c rfl))
    · constructor
      · intro c' hc' hy
        cases hc'
        exact absurd hy hyoung
      · intro _
        have hmiss : getCachedEpisode env (some c) = none := by
          rw [hget, if_neg hyoung]
        exact ⟨fetchLatestEpisode_netCalls_miss env (some c) hmiss,
          fetchLatestEpisode_stores_miss env (some c) hmiss hs⟩

/-- C1 witness: with storage functioning, a 0-aged cache entry is returned
as-is with zero network calls. -/
theorem fetchLatestEpisode_cache_contract_witness :
    fetchLatestEpisode (Env.mk true true true 0 (.httpError 500))
        (some (Episode.mk "t" 0 40 "u" "a" 0)) =
      ⟨.ok (Episode.mk "t" 0 40 "u" "a" 0), some (Episode.mk "t" 0 40 "u" "a" 0), 0⟩ :=
  (fetchLatestEpisode_cache_contract (Env.mk true true true 0 (.httpError 500))
    (some (Episode.mk "t" 0 40 "u" "a" 0)) rfl rfl).1
    (Episode.mk "t" 0 40 "u" "a" 0) rfl (by decide)

/-- C4 counterexample: when the storage-layer clear fails (the error is
swallowed by `clearCache`) and a young cache entry survives, the forced
refresh `resolve(true)` issues zero network calls and returns the cached
record, contradicting the claim that it always issues a network call. -/
theorem resolveRefresh_counterexample :
    (resolveRefresh (Env.mk true true false 0 (.httpError 500))
        (some (Episode.mk "t" 0 40 "u" "a" 0))).netCalls = 0 := by
  decide

/-- C4 amended: whenever the storage-layer clear succeeds, `resolve(true)`
issues a network call for every prior cache state, of any age; only a silently
failed clear that leaves a still-valid entry behind can suppress the call. -/
theorem resolveRefresh_network_call (env : Env) (st : CacheState)
    (hr : env.removeOk = true) :
    (resolveRefresh env st).netCalls = 1 := by
  unfold resolveRefresh clearCache storageRemove
  rw [hr]
  exact fetchLatestEpisode_netCalls_miss env none (getCachedEpisode_none env)

/-- C4 witness: with a functioning clear, a refresh over a 0-aged cache entry
still issues one network call. -/
theorem resolveRefresh_network_call_witness :
    (resolveRefresh (Env.mk true true true 0 (.httpError 500))
        (some (Episode.mk "t" 0 40 "u" "a" 0))).netCalls = 1 :=
  resolveRefresh_network_call (Env.mk true true true 0 (.httpError 500))
    (some (Episode.mk "t" 0 40 "u" "a" 0)) rfl

/-- C5: storage failures never cross the cache boundary: a failed read makes
`getCachedEpisode` return the absent value and resolution proceeds cold (one
network call, same result as with an empty cache), a failed write leaves the
state unchanged and returns normally, and a failed clear leaves the state
unchanged and returns normally. -/
theorem storage_failures_nonfatal (env : Env) (st : CacheState) (ep : Episode) :
    (env.getOk = false →
        getCachedEpisode env st = none ∧
        (fetchLatestEpisode env st).netCalls = 1 ∧
        (fetchLatestEpisode env st).result = (fetchLatestEpisode env none).result) ∧
    (env.setOk = false → cacheEpisode env st ep = st) ∧
    (env.removeOk = false → clearCache env st = st) := by
  refine ⟨fun hg => ?_, fun hs => ?_, fun hr => ?_⟩
  · have hmiss : getCachedEpisode env st = none := by
      unfold getCachedEpisode storageGet
      simp [hg]
    exact ⟨hmiss, fetchLatestEpisode_netCalls_miss env st hmiss,
      fetchLatestEpisode_result_miss env st none hmiss (getCachedEpisode_none env)⟩
  · unfold cacheEpisode storageSet
    simp [hs]
  · unfold clearCache storageRemove
    simp [hr]

/-- C5 witness: with every storage operation failing, the read reports an
absent entry, one network call is issued, and write and clear leave a stored
entry untouched. -/
theorem storage_failures_nonfatal_witness :
    getCachedEpisode (Env.mk false false false 0 (.httpError 500))
        (some (Episode.mk "t" 0 40 "u" "a" 0)) = none ∧
    cacheEpisode (Env.mk false false false 0 (.httpError 500))
        (some (Episode.mk "t" 0 40 "u" "a" 0)) (Episode.mk "t" 0 40 "u" "a" 0) =
      some (Episode.mk "t" 0 40 "u" "a" 0) ∧
    clearCache (Env.mk false false false 0 (.httpError 500))
        (some (Episode.mk "t" 0 40 "u" "a" 0)) =
      some (Episode.mk "t" 0 40 "u" "a" 0) :=
  ⟨((storage_failures_nonfatal (Env.mk false false false 0 (.httpError 500))
      (some (Episode.mk "t" 0 40 "u" "a" 0)) (Episode.mk "t" 0 40 "u" "a" 0)).1 rfl).1,
   (storage_failures_nonfatal (Env.mk false false false 0 (.httpError 500))
      (some (Episode.mk "t" 0 40 "u" "a" 0)) (Episode.mk "t" 0 40 "u" "a" 0)).2.1 rfl,
   (storage_failures_nonfatal (Env.mk false false false 0 (.httpError 500))
      (some (Episode.mk "t" 0 40 "u" "a" 0)) (Episode.mk "t" 0 40 "u" "a" 0)).2.2 rfl⟩

section DomLemmas

/-- The marking step never changes the number of elements. -/
theorem markStep_length (doc : List Elem) (i : Nat) :
    (markStep doc i).length = doc.length := by
  unfold markStep
  repeat' split
  all_goals simp

/-- Pointwise effect of the marking step: each position is either untouched or
has exactly `officialClass` appended to its class list. -/
theorem markStep_getElem (doc : List Elem) (i j : Nat) :
    (markStep doc i)[j]? = doc[j]? ∨
    ∃ e, doc[j]? = some e ∧
      (markStep doc i)[j]? = some { e with classes := e.classes ++ [officialClass] } := by
  unfold markStep
  cases hdoc : doc[i]? with
  | none => exact .inl rfl
  | some link =>
    dsimp only
    by_cases hoff : isOfficialHref (link.href.getD "") = true
    · rw [if_pos hoff]
      cases hc : containerOf doc i with
      | none => exact .inl rfl
      | some c =>
        dsimp only
        cases hcont : doc[c]? with
        | none => exact .inl rfl
        | some cont =>
          dsimp only
          by_cases hmem : cont.classes.contains officialClass = true
          · rw [if_pos hmem]
            exact .inl rfl
          · rw [if_neg hmem]
            by_cases hij : c = j
            · subst hij
              have hlt : c < doc.length := by
                rcases List.getElem?_eq_some_iff.mp hcont with ⟨h, _⟩
                exact h
              exact .inr ⟨cont, hcont, List.getElem?_set_self hlt⟩
            · exact .inl (List.getElem?_set_ne hij)
    · rw [if_neg hoff]
      exact .inl rfl

/-- The marking step preserves every element's skeleton (tag, href, parent). -/
theorem markStep_skel (doc : List Elem) (i j : Nat) :
    ((markStep doc i)[j]?).map skel = (doc[j]?).map skel := by
  rcases markStep_getElem doc i j with h | ⟨e, he, h'⟩
  · rw [h]
  · rw [h', he]
    rfl

/-- The marking step never removes a class from any element. -/
theorem markStep_hasClass_mono (doc : List Elem) (i j : Nat) (c : String)
    (h : hasClass doc j c) : hasClass (markStep doc i) j c := by
  obtain ⟨e, he, hc⟩ := h
  rcases markStep_getElem doc i j with h' | ⟨e', he', h''⟩
  · exact ⟨e, h' ▸ he, hc⟩
  · rw [he] at he'
    cases he'
    exact ⟨_, h'', List.mem_append_left _ hc⟩

/-- Ancestor search only depends on element skeletons. -/
theorem closest_congr (doc doc' : List Elem)
    (h : ∀ j : Nat, (doc'[j]?).map skel = (doc[j]?).map skel) (sel : String) :
    ∀ fuel i, closest doc' sel fuel i = closest doc sel fuel i := by
  intro fuel
  induction fuel with
  | zero => intro i; rfl
  | succ n ih =>
    intro i
    have hj := h i
    unfold closest
    cases hdoc : doc[i]? with
    | none =>
      rw [hdoc] at hj
      cases hdoc' : doc'[i]? with
      | none => rfl
      | some x => rw [hdoc'] at hj; cases hj
    | some e =>
      rw [hdoc] at hj
      cases hdoc' : doc'[i]? with
      | none => rw [hdoc'] at hj; cases hj
      | some e' =>
        rw [hdoc'] at hj
        have hskel : skel e' = skel e := Option.some.inj hj
        have htag : e'.tag = e.tag := congrArg (fun p => p.1) hskel
        have hpar : e'.parent = e.parent := congrArg (fun p => p.2.2) hskel
        dsimp only
        rw [htag, hpar]
        by_cases hs : (e.tag == sel) = true
        · rw [if_pos hs, if_pos hs]
        · rw [if_neg hs, if_neg hs]
          cases e.parent with
          | none => rfl
          | some p => exact ih p

/-- Container lookup only depends on element skeletons and the length. -/
theorem containerOf_congr (doc doc' : List Elem)
    (h : ∀ j : Nat, (doc'[j]?).map skel = (doc[j]?).map skel)
    (hlen : doc'.length = doc.length) (i : Nat) :
    containerOf doc' i = containerOf doc i := by
  unfold containerOf
  rw [hlen, closest_congr doc doc' h "article", closest_congr doc doc' h "div"]

/-- The anchor selection only depends on element skeletons and the length. -/
theorem diggLinks_congr (doc doc' : List Elem)
    (h : ∀ j : Nat, (doc'[j]?).map skel = (doc[j]?).map skel)
    (hlen : doc'.length = doc.length) :
    diggLinks doc' = diggLinks doc := by
  unfold diggLinks
  rw [hlen]
  apply List.filter_congr
  intro i _
  have hj := h i
  cases hdoc : doc[i]? with
  | none =>
    rw [hdoc] at hj
    cases hdoc' : doc'[i]? with
    | none => rfl
    | some x => rw [hdoc'] at hj; cases hj
  | some e =>
    rw [hdoc] at hj
    cases hdoc' : doc'[i]? with
    | none => rw [hdoc'] at hj; cases hj
    | some e' =>
      rw [hdoc'] at hj
      have hskel : skel e' = skel e := Option.some.inj hj
      have htag : e'.tag = e.tag := congrArg (fun p => p.1) hskel
      have hhref : e'.href = e.href := congrArg (fun p => p.2.1) hskel
      simp only [htag, hhref]

/-- Official-anchor classification only depends on element skeletons. -/
theorem linkOfficialAt_congr (doc doc' : List Elem)
    (h : ∀ j : Nat, (doc'[j]?).map skel = (doc[j]?).map skel) (i : Nat) :
    linkOfficialAt doc' i ↔ linkOfficialAt doc i := by
  have hj := h i
  unfold linkOfficialAt
  cases hdoc : doc[i]? with
  | none =>
    rw [hdoc] at hj
    cases hdoc' : doc'[i]? with
    | none => simp
    | some x => rw [hdoc'] at hj; cases hj
  | some e =>
    rw [hdoc] at hj
    cases hdoc' : doc'[i]? with
    | none => rw [hdoc'] at hj; cases hj
    | some e' =>
      rw [hdoc'] at hj
      have hskel : skel e' = skel e := Option.some.inj hj
      have hhref : e'.href = e.href := congrArg (fun p => p.2.1) hskel
      constructor
      · rintro ⟨x, hx, hoff⟩
        cases hx
        exact ⟨e, rfl, by rw [← hhref]; exact hoff⟩
      · rintro ⟨x, hx, hoff⟩
        cases hx
        exact ⟨e', rfl, by rw [hhref]; exact hoff⟩

/-- Ancestor search only returns indices of elements with the requested tag. -/
theorem closest_some (doc : List Elem) (sel : String) :
    ∀ fuel i c, closest doc sel fuel i = some c →
      ∃ e, doc[c]? = some e ∧ (e.tag == sel) = true := by
  intro fuel
  induction fuel with
  | zero => intro i c h; cases h
  | succ n ih =>
    intro i c h
    unfold closest at h
    cases hdoc : doc[i]? with
    | none => rw [hdoc] at h; cases h
    | some e =>
      rw [hdoc] at h
      dsimp only at h
      by_cases hs : (e.tag == sel) = true
      · rw [if_pos hs] at h
        cases h
        exact ⟨e, hdoc, hs⟩
      · rw [if_neg hs] at h
        cases hp : e.parent with
        | none => rw [hp] at h; cases h
        | some p =>
          rw [hp] at h
          exact ih p c h

/-- A container index returned by the lookup points at a real element. -/
theorem containerOf_some (doc : List Elem) (i c : Nat)
    (h : containerOf doc i = some c) : ∃ e, doc[c]? = some e := by
  unfold containerOf at h
  cases h' : closest doc "article" (doc.length + 1) i with
  | some c' =>
    rw [h'] at h
    cases h
    obtain ⟨e, he, _⟩ := closest_some doc "article" (doc.length + 1) i c h'
    exact ⟨e, he⟩
  | none =>
    rw [h'] at h
    obtain ⟨e, he, _⟩ := closest_some doc "div" (doc.length + 1) i c h
    exact ⟨e, he⟩

/-- After the marking step on an official anchor with a container, the
container carries the marker class. -/
theorem markStep_marks (doc : List Elem) (i : Nat)
    (h : linkOfficialAt doc i) (c : Nat) (hc : containerOf doc i = some c) :
    hasClass (markStep doc i) c officialClass := by
  obtain ⟨link, hlink, hoff⟩ := h
  obtain ⟨cont, hcont⟩ := containerOf_some doc i c hc
  unfold markStep
  rw [hlink]
  dsimp only
  rw [if_pos hoff, hc]
  dsimp only
  rw [hcont]
  dsimp only
  by_cases hmem : cont.classes.contains officialClass = true
  · rw [if_pos hmem]
    refine ⟨cont, hcont, ?_⟩
    simpa [List.contains, List.elem_eq_mem] using hmem
  · rw [if_neg hmem]
    have hlt : c < doc.length := by
      rcases List.getElem?_eq_some_iff.mp hcont with ⟨hl, _⟩
      exact hl
    exact ⟨_, List.getElem?_set_self hlt,
      List.mem_append_right _ (List.mem_singleton_self _)⟩

/-- The marking step is the identity when the anchor is not an official link,
has no container, or the container is already marked. -/
theorem markStep_id (doc : List Elem) (i : Nat)
    (h : linkOfficialAt doc i → ∀ c, containerOf doc i = some c →
      hasClass doc c officialClass) :
    markStep doc i = doc := by
  unfold markStep
  cases hdoc : doc[i]? with
  | none => rfl
  | some link =>
    dsimp only
    by_cases hoff : isOfficialHref (link.href.getD "") = true
    · rw [if_pos hoff]
      cases hc : containerOf doc i with
      | none => rfl
      | some c =>
        dsimp only
        cases hcont : doc[c]? with
        | none => rfl
        | some cont =>
          dsimp only
          obtain ⟨e, he, hmem⟩ := h ⟨link, hdoc, hoff⟩ c hc
          rw [he] at hcont
          have hec : e = cont := Option.some.inj hcont
          have hco : cont.classes.contains officialClass = true := by
            rw [← hec]
            simpa [List.contains, List.elem_eq_mem] using hmem
          rw [if_pos hco]
    · rw [if_neg hoff]

/-- The loop over anchors preserves the number of elements. -/
theorem highlightAux_length (doc : List Elem) (links : List Nat) :
    (highlightAux doc links).length = doc.length := by
  induction links generalizing doc with
  | nil => rfl
  | cons i rest ih =>
    unfold highlightAux
    rw [ih, markStep_length]

/-- The loop over anchors preserves every element's skeleton. -/
theorem highlightAux_skel (doc : List Elem) (links : List Nat) (j : Nat) :
    ((highlightAux doc links)[j]?).map skel = (doc[j]?).map skel := by
  induction links generalizing doc with
  | nil => rfl
  | cons i rest ih =>
    unfold highlightAux
    rw [ih, markStep_skel]

/-- The loop over anchors never removes a class. -/
theorem highlightAux_hasClass_mono (doc : List Elem) (links : List Nat)
    (j : Nat) (c : String) (h : hasClass doc j c) :
    hasClass (highlightAux doc links) j c := by
  induction links generalizing doc with
  | nil => exact h
  | cons i rest ih =>
    unfold highlightAux
    exact ih _ (markStep_hasClass_mono doc i j c h)

/-- After the loop, the container of every official anchor in the processed
list is marked. -/
theorem highlightAux_marks (doc : List Elem) (links : List Nat) :
    ∀ i ∈ links, linkOfficialAt doc i → ∀ c, containerOf doc i = some c →
      hasClass (highlightAux doc links) c officialClass := by
  induction links generalizing doc with
  | nil => intro i hi; cases hi
  | cons i0 rest ih =>
    intro i hi hoff c hc
    rcases List.mem_cons.mp hi with rfl | hi'
    · exact highlightAux_hasClass_mono (markStep doc i) rest c officialClass
        (markStep_marks doc i hoff c hc)
    · have hskel := markStep_skel doc i0
      have hlen := markStep_length doc i0
      have hoff' : linkOfficialAt (markStep doc i0) i :=
        (linkOfficialAt_congr doc (markStep doc i0) hskel i).mpr hoff
      have hc' : containerOf (markStep doc i0) i = some c := by
        rw [containerOf_congr doc (markStep doc i0) hskel hlen i]
        exact hc
      exact ih (markStep doc i0) i hi' hoff' c hc'

/-- The loop is the identity when every step is. -/
theorem highlightAux_id (doc : List Elem) (links : List Nat)
    (h : ∀ i ∈ links, markStep doc i = doc) :
    highlightAux doc links = doc := by
  induction links with
  | nil => rfl
  | cons i rest ih =>
    unfold highlightAux
    rw [h i (List.mem_cons_self i rest)]
    exact ih fun j hj => h j (List.mem_cons_of_mem i hj)

end DomLemmas

/-- C6: the DOM marking pass is idempotent — running `highlightOfficialPosts`
twice on an unchanged tree yields exactly the document produced by running it
once, so in particular the same set of marked nodes. -/
theorem highlightOfficialPosts_idempotent (doc : List Elem) :
    highlightOfficialPosts (highlightOfficialPosts doc) = highlightOfficialPosts doc := by
  have hskel : ∀ j, ((highlightOfficialPosts doc)[j]?).map skel = (doc[j]?).map skel :=
    fun j => highlightAux_skel doc (diggLinks doc) j
  have hlen : (highlightOfficialPosts doc).length = doc.length :=
    highlightAux_length doc (diggLinks doc)
  have hlinks : diggLinks (highlightOfficialPosts doc) = diggLinks doc :=
    diggLinks_congr doc (highlightOfficialPosts doc) hskel hlen
  have hdef : ∀ d : List Elem, highlightOfficialPosts d = highlightAux d (diggLinks d) :=
    fun _ => rfl
  have hstep : highlightOfficialPosts (highlightOfficialPosts doc) =
      highlightAux (highlightOfficialPosts doc) (diggLinks doc) := by
    rw [hdef (highlightOfficialPosts doc), hlinks]
  rw [hstep]
  apply highlightAux_id
  intro i hi
  apply markStep_id
  intro hoff c hc
  have hoff0 : linkOfficialAt doc i :=
    (linkOfficialAt_congr doc (highlightOfficialPosts doc) hskel i).mp hoff
  have hc0 : containerOf doc i = some c := by
    rw [← containerOf_congr doc (highlightOfficialPosts doc) hskel hlen i]
    exact hc
  exact highlightAux_marks doc (diggLinks doc) i hi hoff0 c hc0

/-- The executable substring check decides list containment. -/
theorem containsSub_iff (pat l : List Char) : containsSub pat l = true ↔ pat <:+: l := by
  induction l with
  | nil => simp [containsSub, List.isEmpty_iff, List.infix_nil]
  | cons c rest ih =>
    simp [containsSub, List.infix_cons_iff, List.isPrefixOf_iff_prefix, ih, Bool.or_eq_true]

/-- The executable substring check refutes list containment. -/
theorem containsSub_eq_false_iff (pat l : List Char) :
    containsSub pat l = false ↔ ¬ pat <:+: l := by
  rw [← containsSub_iff]
  cases containsSub pat l <;> simp

/-- C7: an anchor is classified official iff its path contains the
official-post substring `/digg-daily-` and contains neither exclusion
substring `homemade` nor `recap`; and on the demonstration document the pass
marks the container of the `/diggdaily/digg-daily-123` anchor and does not
mark the container of the `/diggdaily/digg-daily-homemade-5` anchor. -/
theorem official_rule_and_marking :
    (∀ href : String, isOfficialHref href = true ↔
      ("/digg-daily-".toList <:+: href.toList ∧
       ¬ "homemade".toList <:+: href.toList ∧
       ¬ "recap".toList <:+: href.toList)) ∧
    (highlightOfficialPosts demoDoc).map Elem.classes =
      [[officialClass], [], [], []] := by
  constructor
  · intro href
    simp [isOfficialHref, strContains, containsSub_iff, containsSub_eq_false_iff,
      Bool.and_eq_true, and_assoc]
  · decide

/-- C9 counterexample: the guard of content.js is a substring test on the
hostname, so on the host `notdigg.com` — which is not digg.com nor one of its
subdomains — the component still activates and installs its observer. -/
theorem contentScript_guard_counterexample :
    (runContentScript "notdigg.com" []).fst = true ∧
    specHostMatches "notdigg.com" "digg.com" = false := by
  constructor
  · decide
  · decide

/-- C9 amended: the component is inert — no observer, no injected control, no
marking, document returned unchanged — on every page whose hostname does not
contain `digg.com` as a substring, and it acts only on hostnames containing
that substring (which includes hosts such as `notdigg.com` that are not the
digg.com domain). -/
theorem contentScript_inert_unless_substring (hostname : String) (doc : List Elem) :
    (strContains hostname "digg.com" = false →
      runContentScript hostname doc = (false, doc)) ∧
    ((runContentScript hostname doc).fst = true →
      strContains hostname "digg.com" = true) := by
  unfold runContentScript
  cases h : strContains hostname "digg.com" with
  | false => simp
  | true => simp

/-- C9 witness: on `example.org` the component does nothing. -/
theorem contentScript_inert_witness :
    runContentScript "example.org" [] = (false, []) :=
  (contentScript_inert_unless_substring "example.org" []).1 (by decide)

/-- C10: an anchor that passes the official-post rule but has no `article` or
`div` ancestor is skipped: the container lookup yields nothing, no element is
marked for it, and the document is left entirely unchanged. -/
theorem markStep_skips_containerless (doc : List Elem) (i : Nat) (link : Elem)
    (h1 : doc[i]? = some link) (h2 : isOfficialHref (link.href.getD "") = true)
    (h3 : containerOf doc i = none) :
    markStep doc i = doc := by
  unfold markStep
  rw [h1]
  dsimp only
  rw [if_pos h2, h3]

/-- C10 witness: a lone official anchor with no parent is left unchanged by
the marking step. -/
theorem markStep_skips_containerless_witness :
    markStep [Elem.mk "a" none (some "/diggdaily/digg-daily-9") [] none] 0 =
      [Elem.mk "a" none (some "/diggdaily/digg-daily-9") [] none] :=
  markStep_skips_containerless _ 0 (Elem.mk "a" none (some "/diggdaily/digg-daily-9") [] none)
    rfl (by decide) (by decide)

end DiggDaily
